import Mathlib

/-!
Verification of the `script_to_run_task` transform of the glean taskcluster
configuration (file `taskcluster/glean_taskgraph/transforms/script_to_run_task.py`).

The transform consists of a pure formatter `script_to_bash_command` wrapping a
shell script in a quoted heredoc, and a generator `build_task` that, for each
task record, prints the record, pops `run.script`, stores the four-element
command under `run.command`, and yields the mutated record.

Task records are Python dictionaries; they are embedded as ordered association
lists with Python dict semantics for lookup, `pop`, and assignment (replace in
place when the key exists, append otherwise).  A full run of the generator is
embedded as a function producing the list of yielded records, the list of
records passed to `print` (the I/O log), and the first uncaught exception, if
any.
-/

set_option autoImplicit false

namespace GleanScriptToRunTask

/-- Values stored in a task record: strings (such as `run.script`), lists of
strings (such as `run.command`), and nested mappings (such as `run`). -/
inductive Value where
  | str : String → Value
  | strs : List String → Value
  | dict : List (String × Value) → Value

/-- A Python dictionary with string keys, embedded as an ordered association
list.  A well-formed dictionary has pairwise distinct keys. -/
abbrev Dict := List (String × Value)

/-- A task record is a dictionary of fields; the transform touches its `run`
field only. -/
abbrev Task := Dict

/-- Dictionary lookup, `d[k]`: the value at the first matching key. -/
def dictGet : Dict → String → Option Value
  | [], _ => none
  | (k', v) :: rest, k => if k' = k then some v else dictGet rest k

/-- Dictionary removal with retrieval, `d.pop(k)`: returns the value found at
`k` together with the dictionary with that entry removed, or `none` when the
key is absent (Python raises `KeyError` there). -/
def dictPop : Dict → String → Option (Value × Dict)
  | [], _ => none
  | (k', v) :: rest, k =>
    if k' = k then some (v, rest)
    else
      match dictPop rest k with
      | none => none
      | some (v', rest') => some (v', (k', v) :: rest')

/-- Dictionary assignment, `d[k] = v`: replaces the value in place when the key
exists, appends the binding at the end otherwise. -/
def dictSet : Dict → String → Value → Dict
  | [], k, v => [(k, v)]
  | (k', v') :: rest, k, v =>
    if k' = k then (k, v) :: rest else (k', v') :: dictSet rest k v

/-- The keys of a dictionary, in order. -/
def dictKeys (d : Dict) : List String := d.map Prod.fst

/-- Exceptions the transform can raise: `missingField k` embeds Python's
`KeyError(k)` (the spec's MissingFieldError), `notAMapping k` embeds the
`AttributeError`/`TypeError` raised when the value at `k` is not a mapping. -/
inductive TransformError where
  | missingField : String → TransformError
  | notAMapping : String → TransformError
deriving DecidableEq

/-- The fixed first line of the fourth command element: the heredoc opener
that writes the script to `../script.sh` and then executes it with `bash -e`. -/
def heredocHeader : String :=
  "cat <<'SCRIPT' > ../script.sh && bash -e ../script.sh"

/-- Embedding of `script_to_bash_command` (script_to_run_task.py lines 11-17):
wraps the script body verbatim in a quoted heredoc, mirroring
`"cat <<'SCRIPT' > ../script.sh && bash -e ../script.sh\n{}\nSCRIPT".format(script)`. -/
def script_to_bash_command (script : String) : List String :=
  [ "/bin/bash",
    "--login",
    "-c",
    "cat <<'SCRIPT' > ../script.sh && bash -e ../script.sh\n" ++ script ++ "\nSCRIPT" ]

/-- Comma-separated Python repr of a list of strings (quote escaping inside
reprs is not modelled; no task in this development exercises it). -/
def reprStrs (l : List String) : String :=
  String.intercalate ", " (l.map (fun x => "'" ++ x ++ "'"))

mutual

/-- Python `repr` on the value kinds of this embedding. -/
def pyRepr : Value → String
  | .str s => "'" ++ s ++ "'"
  | .strs l => "[" ++ reprStrs l ++ "]"
  | .dict d => "\x7b" ++ pyReprEntries d ++ "\x7d"

/-- Python `repr` of the entries of a dictionary. -/
def pyReprEntries : List (String × Value) → String
  | [] => ""
  | [(k, v)] => "'" ++ k ++ "': " ++ pyRepr v
  | (k, v) :: rest => "'" ++ k ++ "': " ++ pyRepr v ++ ", " ++ pyReprEntries rest

end

/-- Python `str`, as applied by `str.format` to the popped `script` value: a
string formats as itself, any other value formats via its repr. -/
def pyStr : Value → String
  | .str s => s
  | v => pyRepr v

/-- The body of `build_task`'s loop for one task record (script_to_run_task.py
lines 24-26): pop `script` from `task["run"]`, build the bash command, store it
under `task["run"]["command"]`.  Failures mirror the exceptions Python raises:
a missing `run` or `script` key raises `KeyError` (missingField), a non-mapping
`run` value has no `pop` attribute (notAMapping). -/
def transformTask (task : Task) : Except TransformError Task :=
  match dictGet task "run" with
  | none => .error (.missingField "run")
  | some (Value.dict run) =>
    match dictPop run "script" with
    | none => .error (.missingField "script")
    | some (script, run') =>
      let bash_command := script_to_bash_command (pyStr script)
      .ok (dictSet task "run" (Value.dict (dictSet run' "command" (Value.strs bash_command))))
  | some _ => .error (.notAMapping "run")

/-- The configuration object passed to the transform: opaque context, accepted
but never inspected. -/
structure Config where
  data : List (String × Value)

/-- The observable outcome of running the `build_task` generator to exhaustion:
the records yielded in order, the records printed to standard output in order,
and the first uncaught exception, if any. -/
structure RunResult where
  yielded : List Task
  printed : List Task
  error : Option TransformError

/-- Embedding of the `build_task` generator (script_to_run_task.py lines 20-28),
run to exhaustion: for each task in order, print it, transform it, and yield the
mutated record; an exception stops the run and propagates (the failing record is
printed first, as in the source, but never yielded). -/
def build_task (config : Config) : List Task → RunResult
  | [] => ⟨[], [], none⟩
  | task :: rest =>
    match transformTask task with
    | .error e => ⟨[], [task], some e⟩
    | .ok task' =>
      let r := build_task config rest
      ⟨task' :: r.yielded, task :: r.printed, r.error⟩

/-- Whether a task record contains `run.script` as a string, the input contract
of the transform. -/
def hasRunScript (t : Task) : Bool :=
  match dictGet t "run" with
  | some (Value.dict r) =>
    match dictGet r "script" with
    | some (Value.str _) => true
    | _ => false
  | _ => false

/-- Whether the transform succeeds on a task record. -/
def transformOk (t : Task) : Bool :=
  match transformTask t with
  | .ok _ => true
  | .error _ => false

/-- Splitting a character list at newline characters: the first line paired
with the remaining lines. -/
def splitNlAux : List Char → List Char × List (List Char)
  | [] => ([], [])
  | c :: cs =>
    let r := splitNlAux cs
    if c = '\n' then ([], r.1 :: r.2) else (c :: r.1, r.2)

/-- The lines of a character list, splitting at every newline (a trailing
newline yields a final empty line, as Python's `str.split` does). -/
def splitNl (cs : List Char) : List (List Char) :=
  (splitNlAux cs).1 :: (splitNlAux cs).2

/-- Non-initial lines of a joined line list, each preceded by a newline. -/
def joinNlRest : List (List Char) → List Char
  | [] => []
  | l :: ls => '\n' :: (l ++ joinNlRest ls)

/-- Joining lines with newline separators, the inverse of `splitNl`. -/
def joinNl : List (List Char) → List Char
  | [] => []
  | l :: ls => l ++ joinNlRest ls

/-- The lines of a string. -/
def linesOf (s : String) : List (List Char) := splitNl s.data

/-- Whether a line is not the heredoc terminator line `SCRIPT`. -/
def isNotTerminator (l : List Char) : Bool := l ≠ "SCRIPT".data

/-- Reads the heredoc back out of a command string: drops the opener line, then
takes lines up to the first terminator line `SCRIPT` (as a shell would), and
returns them joined; `none` when no terminator line follows the opener. -/
def extractHeredocBody (c : String) : Option String :=
  let body := (linesOf c).tail
  if "SCRIPT".data ∈ body then
    some (String.mk (joinNl (body.takeWhile isNotTerminator)))
  else none

/-! Concrete records used to instantiate the theorems below. -/

/-- A run mapping holding only a script. -/
def runEx : Dict := [("script", Value.str "echo hi")]

/-- A task record holding `run.script = "echo hi"`. -/
def taskEx : Task := [("run", Value.dict runEx)]

/-- A second task record, with an extra field beside `run`. -/
def taskEx2 : Task :=
  [("run", Value.dict [("script", Value.str "exit 1")]), ("label", Value.str "b")]

/-- A task record whose run mapping lacks `script`. -/
def taskNoScript : Task := [("run", Value.dict [("chain-of-trust", Value.str "true")])]

/-- The run mapping of a task that already carries a command. -/
def runCmdEx : Dict :=
  [("script", Value.str "echo hi"), ("command", Value.strs ["old"])]

/-- A task record holding both `run.script` and a pre-existing `run.command`. -/
def taskCmdEx : Task := [("run", Value.dict runCmdEx)]

/-- The record `taskEx` transforms into. -/
def taskExDone : Task :=
  [("run", Value.dict [("command", Value.strs (script_to_bash_command "echo hi"))])]

/-- An empty configuration object. -/
def cfgEx : Config := ⟨[]⟩

/-- A second, different configuration object. -/
def cfgEx2 : Config := ⟨[("level", Value.str "3")]⟩

/-! Association-list lemmas for the Python dictionary operations. -/

theorem dictGet_dictSet_self (d : Dict) (k : String) (v : Value) :
    dictGet (dictSet d k v) k = some v := by
  induction d with
  | nil => simp [dictSet, dictGet]
  | cons p rest ih =>
    obtain ⟨k', v'⟩ := p
    by_cases h : k' = k
    · simp [dictSet, h, dictGet]
    · simp [dictSet, h, dictGet, ih]

theorem dictGet_dictSet_ne (d : Dict) (k k' : String) (v : Value) (h : k' ≠ k) :
    dictGet (dictSet d k v) k' = dictGet d k' := by
  induction d with
  | nil => simp [dictSet, dictGet, Ne.symm h]
  | cons p rest ih =>
    obtain ⟨k'', v''⟩ := p
    by_cases he : k'' = k
    · subst he
      simp [dictSet, dictGet, Ne.symm h]
    · simp [dictSet, he, dictGet, ih]

theorem dictPop_none_of_get_none (d : Dict) (k : String) (h : dictGet d k = none) :
    dictPop d k = none := by
  induction d with
  | nil => rfl
  | cons p rest ih =>
    obtain ⟨k', v⟩ := p
    by_cases he : k' = k
    · simp [dictGet, he] at h
    · simp [dictGet, he] at h
      simp [dictPop, he, ih h]

theorem dictPop_some_of_get_some (d : Dict) (k : String) (v : Value)
    (h : dictGet d k = some v) : ∃ d', dictPop d k = some (v, d') := by
  induction d with
  | nil => simp [dictGet] at h
  | cons p rest ih =>
    obtain ⟨k', v'⟩ := p
    by_cases he : k' = k
    · simp [dictGet, he] at h
      exact ⟨rest, by simp [dictPop, he, h]⟩
    · simp [dictGet, he] at h
      obtain ⟨d', hd'⟩ := ih h
      exact ⟨(k', v') :: d', by simp [dictPop, he, hd']⟩

theorem dictGet_of_pop_ne (d d' : Dict) (k k' : String) (v : Value)
    (h : dictPop d k = some (v, d')) (hne : k' ≠ k) :
    dictGet d' k' = dictGet d k' := by
  induction d generalizing d' with
  | nil => simp [dictPop] at h
  | cons p rest ih =>
    obtain ⟨k'', v''⟩ := p
    by_cases he : k'' = k
    · simp [dictPop, he] at h
      obtain ⟨rfl, rfl⟩ := h
      simp [dictGet, he, Ne.symm hne]
    · simp [dictPop, he] at h
      cases hp : dictPop rest k with
      | none => rw [hp] at h; simp at h
      | some q =>
        obtain ⟨v₀, rest₀⟩ := q
        rw [hp] at h
        simp at h
        obtain ⟨rfl, rfl⟩ := h
        by_cases hq : k'' = k'
        · simp [dictGet, hq]
        · simp [dictGet, hq, ih rest₀ hp]

theorem dictGet_none_of_not_mem_keys (d : Dict) (k : String)
    (h : k ∉ dictKeys d) : dictGet d k = none := by
  induction d with
  | nil => rfl
  | cons p rest ih =>
    obtain ⟨k', v⟩ := p
    rw [dictKeys, List.map_cons] at h
    simp only [List.mem_cons, not_or] at h
    have h1 : ¬ (k' = k) := fun he => h.1 he.symm
    simp [dictGet, h1, ih h.2]

theorem dictGet_pop_self_of_nodup (d d' : Dict) (k : String) (v : Value)
    (hnd : (dictKeys d).Nodup) (h : dictPop d k = some (v, d')) :
    dictGet d' k = none := by
  induction d generalizing d' with
  | nil => simp [dictPop] at h
  | cons p rest ih =>
    obtain ⟨k'', v''⟩ := p
    by_cases he : k'' = k
    · simp [dictPop, he] at h
      obtain ⟨rfl, rfl⟩ := h
      subst he
      rw [dictKeys, List.map_cons] at hnd
      obtain ⟨hmem, -⟩ := List.nodup_cons.mp hnd
      exact dictGet_none_of_not_mem_keys rest k'' hmem
    · simp [dictPop, he] at h
      cases hp : dictPop rest k with
      | none => rw [hp] at h; simp at h
      | some q =>
        obtain ⟨v₀, rest₀⟩ := q
        rw [hp] at h
        simp at h
        obtain ⟨rfl, rfl⟩ := h
        rw [dictKeys, List.map_cons] at hnd
        obtain ⟨-, hnd2⟩ := List.nodup_cons.mp hnd
        simp [dictGet, he, ih rest₀ hnd2 hp]

/-! Lemmas about the per-record transform and the generator run. -/

theorem transformTask_ok_eq (task : Task) (r r' : Dict) (v : Value)
    (hrun : dictGet task "run" = some (Value.dict r))
    (hpop : dictPop r "script" = some (v, r')) :
    transformTask task =
      .ok (dictSet task "run" (Value.dict (dictSet r' "command"
        (Value.strs (script_to_bash_command (pyStr v)))))) := by
  simp [transformTask, hrun, hpop]

theorem transformTask_error_no_script (task : Task) (r : Dict)
    (hrun : dictGet task "run" = some (Value.dict r))
    (hns : dictGet r "script" = none) :
    transformTask task = .error (.missingField "script") := by
  simp [transformTask, hrun, dictPop_none_of_get_none r "script" hns]

theorem transformTask_ok_of_hasRunScript (t : Task) (h : hasRunScript t = true) :
    ∃ t', transformTask t = .ok t' := by
  unfold hasRunScript at h
  cases hg : dictGet t "run" with
  | none => rw [hg] at h; simp at h
  | some v =>
    rw [hg] at h
    cases v with
    | str s => simp at h
    | strs l => simp at h
    | dict r =>
      have h' : (match dictGet r "script" with
          | some (Value.str _) => true
          | _ => false) = true := h
      cases hs : dictGet r "script" with
      | none => rw [hs] at h'; simp at h'
      | some sv =>
        rw [hs] at h'
        cases sv with
        | str s =>
          obtain ⟨r', hpop⟩ := dictPop_some_of_get_some r "script" _ hs
          exact ⟨_, transformTask_ok_eq t r r' _ hg hpop⟩
        | strs l => simp at h'
        | dict d => simp at h'

theorem build_task_config_irrelevant (c₁ c₂ : Config) (ts : List Task) :
    build_task c₁ ts = build_task c₂ ts := by
  induction ts with
  | nil => rfl
  | cons t rest ih =>
    cases h : transformTask t with
    | error e => simp [build_task, h]
    | ok t' => simp [build_task, h, ih]

theorem build_task_printed_ok (c : Config) (ts : List Task)
    (h : ∀ t ∈ ts, transformOk t = true) :
    (build_task c ts).printed = ts := by
  induction ts with
  | nil => rfl
  | cons t rest ih =>
    have ht := h t (List.mem_cons_self t rest)
    unfold transformOk at ht
    cases htr : transformTask t with
    | error e => rw [htr] at ht; simp at ht
    | ok t' =>
      simp [build_task, htr, ih (fun u hu => h u (List.mem_cons_of_mem t hu))]

/-! Lemmas about line splitting and joining. -/

theorem splitNlAux_append_nl (a b : List Char) :
    splitNlAux (a ++ '\n' :: b) = ((splitNlAux a).1, (splitNlAux a).2 ++ splitNl b) := by
  induction a with
  | nil => simp [splitNlAux, splitNl]
  | cons c cs ih =>
    by_cases h : c = '\n' <;> simp [splitNlAux, h, ih]

theorem splitNl_append_nl (a b : List Char) :
    splitNl (a ++ '\n' :: b) = splitNl a ++ splitNl b := by
  simp [splitNl, splitNlAux_append_nl]

theorem joinNlRest_splitNlAux (cs : List Char) :
    (splitNlAux cs).1 ++ joinNlRest (splitNlAux cs).2 = cs := by
  induction cs with
  | nil => rfl
  | cons c cs ih =>
    by_cases h : c = '\n'
    · simp only [splitNlAux, h, if_pos]
      simpa [joinNlRest] using congrArg (fun l => '\n' :: l) ih
    · simp only [splitNlAux, h, if_neg, not_false_iff]
      simpa using congrArg (fun l => c :: l) ih

theorem joinNl_splitNl (cs : List Char) : joinNl (splitNl cs) = cs := by
  simpa [splitNl, joinNl] using joinNlRest_splitNlAux cs

theorem takeWhile_all_append {α : Type} (p : α → Bool) (xs ys : List α)
    (h : ∀ x ∈ xs, p x = true) :
    (xs ++ ys).takeWhile p = xs ++ ys.takeWhile p := by
  induction xs with
  | nil => simp
  | cons x xs ih =>
    simp [List.takeWhile_cons, h x (List.mem_cons_self x xs),
      ih (fun y hy => h y (List.mem_cons_of_mem x hy))]

theorem splitNl_header : splitNl heredocHeader.data = [heredocHeader.data] := rfl

theorem data_command (s : String) :
    (heredocHeader ++ "\n" ++ s ++ "\n" ++ "SCRIPT").data
      = heredocHeader.data ++ '\n' :: (s.data ++ '\n' :: "SCRIPT".data) := by
  have h1 : "\n".data = ['\n'] := rfl
  simp [String.data_append, h1]

theorem linesOf_command (s : String) :
    linesOf (heredocHeader ++ "\n" ++ s ++ "\n" ++ "SCRIPT")
      = heredocHeader.data :: (splitNl s.data ++ ["SCRIPT".data]) := by
  unfold linesOf
  rw [data_command, splitNl_append_nl, splitNl_append_nl, splitNl_header]
  simp [splitNl, splitNlAux]

theorem fourth_command_element (s : String) :
    (script_to_bash_command s).getD 3 ""
      = heredocHeader ++ "\n" ++ s ++ "\n" ++ "SCRIPT" := by
  show "cat <<'SCRIPT' > ../script.sh && bash -e ../script.sh\n" ++ s ++ "\nSCRIPT" = _
  conv_rhs => rw [String.append_assoc]
  rfl

/-! Claim theorems. -/

/-- C1: for every script string, `script_to_bash_command` returns exactly four
strings, in order `/bin/bash`, `--login`, `-c`, and the heredoc opener line
followed by a newline, the script body verbatim, a newline, and `SCRIPT`; on
input `"echo hi"` it returns the example command. -/
theorem script_to_bash_command_shape (s : String) :
    (script_to_bash_command s).length = 4 ∧
    (script_to_bash_command s)[0]? = some "/bin/bash" ∧
    (script_to_bash_command s)[1]? = some "--login" ∧
    (script_to_bash_command s)[2]? = some "-c" ∧
    (script_to_bash_command s)[3]? = some (heredocHeader ++ "\n" ++ s ++ "\n" ++ "SCRIPT") ∧
    script_to_bash_command "echo hi" =
      ["/bin/bash", "--login", "-c",
       "cat <<'SCRIPT' > ../script.sh && bash -e ../script.sh\necho hi\nSCRIPT"] := by
  refine ⟨rfl, rfl, rfl, rfl, ?_, rfl⟩
  exact congrArg some (fourth_command_element s)

/-- C8: the formatter is total and raises nothing: even for a script containing
a line equal to the literal terminator token `SCRIPT`, the hazard is neither
detected nor rejected and the body is still embedded verbatim in the standard
four-element command. -/
theorem script_to_bash_command_hazard (s : String)
    (h : "SCRIPT".data ∈ linesOf s) :
    script_to_bash_command s =
      ["/bin/bash", "--login", "-c",
       heredocHeader ++ "\n" ++ s ++ "\n" ++ "SCRIPT"] := by
  calc script_to_bash_command s
      = ["/bin/bash", "--login", "-c", (script_to_bash_command s).getD 3 ""] := rfl
    _ = _ := by rw [fourth_command_element s]

/-- C8 witness: a script whose middle line is the bare terminator token is
still formatted, with the hazardous body embedded verbatim. -/
theorem script_to_bash_command_hazard_witness :
    ("SCRIPT".data ∈ linesOf "echo a\nSCRIPT\necho b") ∧
    script_to_bash_command "echo a\nSCRIPT\necho b" =
      ["/bin/bash", "--login", "-c",
       heredocHeader ++ "\n" ++ "echo a\nSCRIPT\necho b" ++ "\n" ++ "SCRIPT"] :=
  ⟨by decide, script_to_bash_command_hazard "echo a\nSCRIPT\necho b" (by decide)⟩

/-- C4: for every script with no line equal to the literal token `SCRIPT`,
formatting and then extracting the text between the heredoc opener line and
the terminator line of the fourth command element returns the script
unchanged. -/
theorem extract_heredoc_roundtrip (s : String)
    (h : "SCRIPT".data ∉ linesOf s) :
    extractHeredocBody ((script_to_bash_command s).getD 3 "") = some s := by
  have hmem : "SCRIPT".data ∈ splitNl s.data ++ ["SCRIPT".data] :=
    List.mem_append_right _ (List.mem_singleton_self _)
  have hall : ∀ x ∈ splitNl s.data, isNotTerminator x = true := by
    intro x hx
    exact decide_eq_true (fun heq => h (heq ▸ hx))
  rw [fourth_command_element s]
  simp only [extractHeredocBody, linesOf_command, List.tail_cons]
  rw [if_pos hmem, takeWhile_all_append isNotTerminator _ _ hall]
  have ht : List.takeWhile isNotTerminator ["SCRIPT".data] = [] := rfl
  rw [ht, List.append_nil, joinNl_splitNl]

/-- C4 witness: the round trip at the two-line script `"a\nb"`. -/
theorem extract_heredoc_roundtrip_witness :
    extractHeredocBody ((script_to_bash_command "a\nb").getD 3 "") = some "a\nb" :=
  extract_heredoc_roundtrip "a\nb" (by decide)

/-- C2: a task record whose run mapping lacks `script` makes the transform fail
with the key-not-found MissingFieldError; the error propagates out of the
generator run and the record is never yielded (the run yields exactly the
records preceding it). -/
theorem build_task_missing_script_error (c : Config) (pre post : List Task)
    (t : Task) (r : Dict)
    (hrun : dictGet t "run" = some (Value.dict r))
    (hns : dictGet r "script" = none)
    (hpre : ∀ u ∈ pre, transformOk u = true) :
    transformTask t = .error (.missingField "script") ∧
    (build_task c (pre ++ t :: post)).error = some (.missingField "script") ∧
    (build_task c (pre ++ t :: post)).yielded.length = pre.length := by
  have hfail := transformTask_error_no_script t r hrun hns
  refine ⟨hfail, ?_⟩
  induction pre with
  | nil => exact ⟨by simp [build_task, hfail], by simp [build_task, hfail]⟩
  | cons u pre' ih =>
    have hu := hpre u (List.mem_cons_self u pre')
    unfold transformOk at hu
    cases hu' : transformTask u with
    | error e => rw [hu'] at hu; simp at hu
    | ok u' =>
      obtain ⟨ih₁, ih₂⟩ := ih (fun w hw => hpre w (List.mem_cons_of_mem u hw))
      exact ⟨by simp [build_task, hu', ih₁], by simp [build_task, hu', ih₂]⟩

/-- C2 witness: a record with a scriptless run mapping, placed after one good
record and before another, fails the run with MissingFieldError and only the
good record before it is yielded. -/
theorem build_task_missing_script_error_witness :
    transformTask taskNoScript = .error (.missingField "script") ∧
    (build_task cfgEx ([taskEx] ++ taskNoScript :: [taskEx2])).error =
      some (.missingField "script") ∧
    (build_task cfgEx ([taskEx] ++ taskNoScript :: [taskEx2])).yielded.length =
      [taskEx].length :=
  build_task_missing_script_error cfgEx [taskEx] [taskEx2] taskNoScript
    [("chain-of-trust", Value.str "true")] rfl rfl (by decide)

/-- C3: for a task with `run.script = s` (a string) and no prior `run.command`,
the transform succeeds and afterwards `run.script` is absent, `run.command`
holds exactly the four-element command whose first three elements are
`/bin/bash`, `--login`, `-c` and whose fourth embeds `s` verbatim between the
two SCRIPT markers. -/
theorem transformTask_invariant (task : Task) (r : Dict) (s : String)
    (hrun : dictGet task "run" = some (Value.dict r))
    (hscript : dictGet r "script" = some (Value.str s))
    (hnocmd : dictGet r "command" = none)
    (hnd : (dictKeys r).Nodup) :
    ∃ task' r', transformTask task = .ok task' ∧
      dictGet task' "run" = some (Value.dict r') ∧
      dictGet r' "script" = none ∧
      dictGet r' "command" = some (Value.strs (script_to_bash_command s)) ∧
      (script_to_bash_command s).length = 4 ∧
      (script_to_bash_command s).take 3 = ["/bin/bash", "--login", "-c"] ∧
      (script_to_bash_command s).getD 3 "" =
        heredocHeader ++ "\n" ++ s ++ "\n" ++ "SCRIPT" := by
  obtain ⟨r₀, hpop⟩ := dictPop_some_of_get_some r "script" _ hscript
  refine ⟨_, _, transformTask_ok_eq task r r₀ _ hrun hpop,
    dictGet_dictSet_self _ _ _, ?_, dictGet_dictSet_self _ _ _,
    rfl, rfl, fourth_command_element s⟩
  rw [dictGet_dictSet_ne _ _ _ _ (by decide)]
  exact dictGet_pop_self_of_nodup r r₀ "script" _ hnd hpop

/-- C3 witness: the invariant instantiated at the example task
`{"run": {"script": "echo hi"}}`. -/
theorem transformTask_invariant_witness :
    ∃ task' r', transformTask taskEx = .ok task' ∧
      dictGet task' "run" = some (Value.dict r') ∧
      dictGet r' "script" = none ∧
      dictGet r' "command" = some (Value.strs (script_to_bash_command "echo hi")) ∧
      (script_to_bash_command "echo hi").length = 4 ∧
      (script_to_bash_command "echo hi").take 3 = ["/bin/bash", "--login", "-c"] ∧
      (script_to_bash_command "echo hi").getD 3 "" =
        heredocHeader ++ "\n" ++ "echo hi" ++ "\n" ++ "SCRIPT" :=
  transformTask_invariant taskEx runEx "echo hi" rfl rfl rfl (by decide)

/-- C5: on an input sequence of task records all containing `run.script`, the
run raises nothing and yields exactly as many records, the i-th output being
the transform of the i-th input (order preserved). -/
theorem build_task_preserves_order (c : Config) (ts : List Task)
    (h : ∀ t ∈ ts, hasRunScript t = true) :
    (build_task c ts).error = none ∧
    (build_task c ts).yielded.length = ts.length ∧
    List.Forall₂ (fun t t' => transformTask t = .ok t') ts (build_task c ts).yielded := by
  induction ts with
  | nil => exact ⟨rfl, rfl, List.Forall₂.nil⟩
  | cons t rest ih =>
    obtain ⟨t', ht⟩ := transformTask_ok_of_hasRunScript t (h t (List.mem_cons_self t rest))
    obtain ⟨ih₁, ih₂, ih₃⟩ := ih (fun u hu => h u (List.mem_cons_of_mem t hu))
    refine ⟨by simp [build_task, ht, ih₁], by simp [build_task, ht, ih₂], ?_⟩
    have hy : (build_task c (t :: rest)).yielded = t' :: (build_task c rest).yielded := by
      simp [build_task, ht]
    rw [hy]
    exact List.Forall₂.cons ht ih₃

/-- C5 witness: a two-record input yields two records, in order, without
error. -/
theorem build_task_preserves_order_witness :
    (build_task cfgEx [taskEx, taskEx2]).error = none ∧
    (build_task cfgEx [taskEx, taskEx2]).yielded.length = [taskEx, taskEx2].length ∧
    List.Forall₂ (fun t t' => transformTask t = .ok t') [taskEx, taskEx2]
      (build_task cfgEx [taskEx, taskEx2]).yielded :=
  build_task_preserves_order cfgEx [taskEx, taskEx2] (by decide)

/-- C9: on a task carrying both `run.script` and a pre-existing `run.command`,
the transform succeeds with no check or error and unconditionally overwrites
`run.command` with the newly built command. -/
theorem transformTask_overwrites_command (task : Task) (r : Dict) (s : String)
    (old : Value)
    (hrun : dictGet task "run" = some (Value.dict r))
    (hscript : dictGet r "script" = some (Value.str s))
    (hcmd : dictGet r "command" = some old) :
    ∃ task' r', transformTask task = .ok task' ∧
      dictGet task' "run" = some (Value.dict r') ∧
      dictGet r' "command" = some (Value.strs (script_to_bash_command s)) := by
  obtain ⟨r₀, hpop⟩ := dictPop_some_of_get_some r "script" _ hscript
  exact ⟨_, _, transformTask_ok_eq task r r₀ _ hrun hpop,
    dictGet_dictSet_self _ _ _, dictGet_dictSet_self _ _ _⟩

/-- C9 witness: a task whose run mapping already holds `command = ["old"]` gets
it overwritten by the built command. -/
theorem transformTask_overwrites_command_witness :
    ∃ task' r', transformTask taskCmdEx = .ok task' ∧
      dictGet task' "run" = some (Value.dict r') ∧
      dictGet r' "command" = some (Value.strs (script_to_bash_command "echo hi")) :=
  transformTask_overwrites_command taskCmdEx runCmdEx "echo hi"
    (Value.strs ["old"]) rfl rfl rfl

/-- C10: the transform is not idempotent: a record it has already transformed
(`run.script` absent, `run.command` present) makes it raise the key-not-found
MissingFieldError instead of yielding the record unchanged. -/
theorem transformTask_not_idempotent (task task' : Task) (r : Dict)
    (hrun : dictGet task "run" = some (Value.dict r))
    (hnd : (dictKeys r).Nodup)
    (hok : transformTask task = .ok task') :
    transformTask task' = .error (.missingField "script") ∧
    ∀ c : Config, (build_task c [task']).yielded = [] ∧
      (build_task c [task']).error = some (.missingField "script") := by
  cases hpop : dictPop r "script" with
  | none => simp [transformTask, hrun, hpop] at hok
  | some p =>
    obtain ⟨v, r₀⟩ := p
    rw [transformTask_ok_eq task r r₀ v hrun hpop] at hok
    obtain rfl := Except.ok.inj hok
    have hs0 : dictGet r₀ "script" = none :=
      dictGet_pop_self_of_nodup r r₀ "script" v hnd hpop
    have hs1 : dictGet (dictSet r₀ "command"
        (Value.strs (script_to_bash_command (pyStr v)))) "script" = none := by
      rw [dictGet_dictSet_ne _ _ _ _ (by decide)]
      exact hs0
    have herr := transformTask_error_no_script _ _
      (dictGet_dictSet_self task "run" _) hs1
    exact ⟨herr, fun c => ⟨by simp [build_task, herr], by simp [build_task, herr]⟩⟩

/-- C10 witness: re-running the transform on the transformed example record
raises MissingFieldError and yields nothing. -/
theorem transformTask_not_idempotent_witness :
    transformTask taskExDone = .error (.missingField "script") ∧
    (build_task cfgEx [taskExDone]).yielded = [] ∧
    (build_task cfgEx [taskExDone]).error = some (.missingField "script") := by
  have h := transformTask_not_idempotent taskEx taskExDone runEx rfl (by decide) rfl
  exact ⟨h.1, (h.2 cfgEx).1, (h.2 cfgEx).2⟩

/-- C6 counterexample: the claim that no I/O is performed is false on the
code: `build_task` prints every task record it processes (line 23 of the
source), so the printed log of a concrete run is nonempty. -/
theorem build_task_prints_counterexample :
    (build_task cfgEx [taskEx]).printed = [taskEx] ∧
    (build_task cfgEx [taskEx]).printed ≠ [] :=
  ⟨rfl, List.cons_ne_nil taskEx []⟩

/-- C6 (amended): the transform's only mutations on a task record are removing
`run.script` and adding `run.command` — every other task field and every other
run key keeps its value, and the configuration object (never inspected by
`build_task`) is not mutated — but the transform does perform I/O: it prints
each record it processes, before mutating it. -/
theorem transformTask_frame_and_print :
    (∀ (task : Task) (r r' : Dict) (v : Value),
      dictGet task "run" = some (Value.dict r) →
      dictPop r "script" = some (v, r') →
      ∃ task' r'', transformTask task = .ok task' ∧
        (∀ k, k ≠ "run" → dictGet task' k = dictGet task k) ∧
        dictGet task' "run" = some (Value.dict r'') ∧
        (∀ k, k ≠ "script" → k ≠ "command" → dictGet r'' k = dictGet r k) ∧
        dictGet r'' "command" =
          some (Value.strs (script_to_bash_command (pyStr v)))) ∧
    (∀ (c : Config) (ts : List Task),
      (∀ t ∈ ts, transformOk t = true) → (build_task c ts).printed = ts) := by
  constructor
  · intro task r r' v hrun hpop
    refine ⟨_, _, transformTask_ok_eq task r r' v hrun hpop, ?_,
      dictGet_dictSet_self _ _ _, ?_, dictGet_dictSet_self _ _ _⟩
    · intro k hk
      exact dictGet_dictSet_ne task "run" k _ hk
    · intro k hks hkc
      rw [dictGet_dictSet_ne _ _ _ _ hkc]
      exact dictGet_of_pop_ne r r' "script" k v hpop hks
  · exact build_task_printed_ok

/-- C6 witness: the frame at the task `taskEx2` (its `label` field survives
unchanged) and the print log of a concrete run. -/
theorem transformTask_frame_and_print_witness :
    (∃ task' r'', transformTask taskEx2 = .ok task' ∧
      dictGet task' "label" = dictGet taskEx2 "label" ∧
      dictGet task' "run" = some (Value.dict r'') ∧
      dictGet r'' "command" =
        some (Value.strs (script_to_bash_command "exit 1"))) ∧
    (build_task cfgEx [taskEx]).printed = [taskEx] := by
  obtain ⟨task', r'', hok, hframe, hrun, _, hcmd⟩ :=
    transformTask_frame_and_print.1 taskEx2 [("script", Value.str "exit 1")] []
      (Value.str "exit 1") rfl rfl
  exact ⟨⟨task', r'', hok, hframe "label" (by decide), hrun, hcmd⟩,
    transformTask_frame_and_print.2 cfgEx [taskEx] (by decide)⟩

/-- C7: the transform is deterministic: equal configurations and equal input
sequences give equal runs; moreover the run does not depend on the
configuration at all. -/
theorem build_task_deterministic :
    (∀ (c₁ c₂ : Config) (ts₁ ts₂ : List Task),
      c₁ = c₂ → ts₁ = ts₂ → build_task c₁ ts₁ = build_task c₂ ts₂) ∧
    (∀ (c₁ c₂ : Config) (ts : List Task), build_task c₁ ts = build_task c₂ ts) := by
  refine ⟨?_, build_task_config_irrelevant⟩
  intro c₁ c₂ ts₁ ts₂ hc hts
  rw [hc, hts]

/-- C7 witness: determinism at a concrete run, and independence from two
different concrete configuration objects. -/
theorem build_task_deterministic_witness :
    build_task cfgEx [taskEx] = build_task cfgEx [taskEx] ∧
    build_task cfgEx [taskEx] = build_task cfgEx2 [taskEx] :=
  ⟨build_task_deterministic.1 cfgEx cfgEx [taskEx] [taskEx] rfl rfl,
   build_task_deterministic.2 cfgEx cfgEx2 [taskEx]⟩

end GleanScriptToRunTask
